import Mathlib

/-!
Verification of the resume-intake service (`app/main.py`, `app/llm.py`,
`app/storage.py`, `app/models.py`).

Shallow embedding conventions:
* Python `str` is Lean `String`; Python truthiness of strings/options is made
  explicit (`strTruthy`, `strOptTruthy`).
* Python `float` scores are modelled as `ℚ`; the clamping arithmetic of
  `llm.evaluate_resume` is exact on rationals.
* The external collaborators (EasyOCR extraction, the Gemini completion API,
  the MongoDB audit sink) are opaque: their per-call outcomes are inputs of the
  orchestrator, supplied by oracle functions indexed by call position.
* `asyncio.wait_for` timeouts are modelled by `CallResult.timeout`.
* Side effects that the claims talk about (completion-service calls, the audit
  write) are recorded in an explicit event list returned next to the response.
-/

namespace Teddy

/-- Python string truthiness: a `str` is truthy iff it is non-empty. -/
def strTruthy (s : String) : Bool := !s.data.isEmpty

/-- Python truthiness of an `Optional[str]`: truthy iff present and non-empty. -/
def strOptTruthy : Option String → Bool
  | none => false
  | some s => strTruthy s

/-- Character-list prefix test (semantics of Python `str.startswith`). -/
def startsWithChars : List Char → List Char → Bool
  | _, [] => true
  | [], _ :: _ => false
  | a :: as, p :: ps => a == p && startsWithChars as ps

/-- Python `s.startswith(pat)`. -/
def strStartsWith (s pat : String) : Bool := startsWithChars s.data pat.data

/-- CPython `min(a, b)`: returns `b` only when `b < a`. -/
def pymin (a b : ℚ) : ℚ := if b < a then b else a

/-- CPython `max(a, b)`: returns `b` only when `b > a`. -/
def pymax (a b : ℚ) : ℚ := if b > a then b else a

/-- `max(0.0, min(1.0, score))` from `llm.evaluate_resume` (llm.py:179). -/
def clamp01 (s : ℚ) : ℚ := pymax 0 (pymin 1 s)

/-! ## Data model (`app/models.py`) -/

/-- `models.ResumeFile`: a processed upload; `text` is the OCR result or an
in-band sentinel string recording a failure (main.py:212,218,227). -/
structure ResumeFile where
  filename : String
  content_type : String
  text : Option String
deriving Repr, DecidableEq

/-- `models.ResumeSummary`. -/
structure ResumeSummary where
  file_name : String
  summary : String
  name : Option String := none
  title : Option String := none
  technologies : Option (List String) := none
  experiences : Option (List String) := none
  education : Option (List String) := none
deriving Repr, DecidableEq

/-- `models.QueryMatch`; `score` is the Python float, modelled as `ℚ`. -/
structure QueryMatch where
  file_name : String
  score : ℚ
  justification : String
  name : Option String := none
  title : Option String := none
deriving Repr, DecidableEq

/-- `models.SummariesResponse`. -/
structure SummariesResponse where
  request_id : String
  user_id : String
  summaries : List ResumeSummary
deriving Repr, DecidableEq

/-- `models.RankingResponse`. -/
structure RankingResponse where
  request_id : String
  user_id : String
  query : String
  ranking : List QueryMatch
deriving Repr, DecidableEq

/-- The `Union[SummariesResponse, RankingResponse]` returned by `/analyze`. -/
inductive AnalyzeResponse
  | summaries (r : SummariesResponse)
  | ranking (r : RankingResponse)
deriving Repr, DecidableEq

/-- The `result` payload stored in a `models.LogEntry` (`Any` in the source:
either the summary list or the sorted ranking list, main.py:304,339). -/
inductive AuditResult
  | summaries (l : List ResumeSummary)
  | ranking (l : List QueryMatch)
deriving Repr, DecidableEq

/-- `models.LogEntry`; `timestamp` is an abstract clock value (`datetime`). -/
structure LogEntry where
  request_id : String
  user_id : String
  timestamp : Nat
  query : Option String
  files_processed : List String
  result : AuditResult
  error_message : Option String
deriving Repr, DecidableEq

/-- `fastapi.HTTPException` payload. -/
structure HttpError where
  status : Nat
  detail : String
deriving Repr, DecidableEq

/-! ## Completion service (`app/llm.py`) -/

/-- Result of `float(result.get("score", 0.0))` in `evaluate_resume`
(llm.py:177): `ok q` when the conversion produces a number, `exn msg` when it
raises (non-numeric or null score value); `msg` models `str(e)` of the raised
exception. -/
inductive ScoreConv
  | ok (q : ℚ)
  | exn (msg : String)
deriving Repr, DecidableEq

/-- The parsed JSON object `evaluate_resume` receives from `_call_gemini_api`
when that call yields a truthy value: the values of `result.get("title")` and
`result.get("justification")` (a JSON null gives `none`), the key-membership
tests of `"justification"` and `"score"` (llm.py:173), and the outcome of the
numeric conversion of the score value. -/
structure EvalApiResult where
  title : Option String
  hasJustification : Bool
  justification : Option String
  hasScore : Bool
  scoreConv : ScoreConv
deriving Repr, DecidableEq

/-- `llm.evaluate_resume(resume_text, query, file_name)` (llm.py:132-191).
`api` is the outcome of `_call_gemini_api`: `none` when the call returned a
falsy value (missing `GEMINI_API_KEY`, HTTP error, JSON decode error, invalid
response structure — llm.py:15-58). `resume_text`, `query` and `file_name`
only shape the prompt and the logs, never the returned value. -/
def evaluate_resume (resume_text query file_name : String)
    (api : Option EvalApiResult) : Option String × Option String × Option ℚ :=
  match api with
  | none =>
      (none, some "Erro ao analisar resposta da IA: formato inválido ou chaves ausentes.", some 0)
  | some r =>
      if r.hasJustification && r.hasScore then
        match r.scoreConv with
        | .ok s => (r.title, r.justification, some (clamp01 s))
        | .exn e => (none, some ("Erro no processamento: " ++ e), some 0)
      else
        (none, some "Erro ao analisar resposta da IA: formato inválido ou chaves ausentes.", some 0)

/-- The field values `summarize_resume` reads off the parsed JSON object
(llm.py:114-122): `name`/`title` are `result.get(k)`; the three list fields
hold `result.get(k, [])` (so a missing key gives `some []`, a JSON null gives
`none`); `summary` holds `result.get("summary", "")`. -/
structure SummApiResult where
  name : Option String
  title : Option String
  technologies : Option (List String)
  experiences : Option (List String)
  education : Option (List String)
  summary : String
deriving Repr, DecidableEq

/-- Outcome of one `summarize_resume` call as seen from its own body:
`fail` when `_call_gemini_api` returned a falsy value, `ok` when it returned a
parsed object, `exn` when an exception escaped to the handler at llm.py:127. -/
inductive SummApi
  | fail
  | ok (r : SummApiResult)
  | exn (msg : String)
deriving Repr, DecidableEq

/-- `llm.summarize_resume(resume_text, file_name)` (llm.py:61-129): returns a
`ResumeSummary` built from the parsed object, an error-text summary when the
API result was falsy, and `None` only when an exception was caught. -/
def summarize_resume (resume_text file_name : String) (api : SummApi) :
    Option ResumeSummary :=
  match api with
  | .fail => some { file_name := file_name,
                    summary := "Erro ao analisar resposta da IA: formato inválido." }
  | .ok r => some { file_name := file_name, summary := r.summary, name := r.name,
                    title := r.title, technologies := r.technologies,
                    experiences := r.experiences, education := r.education }
  | .exn _ => none

/-! ## Request orchestration (`app/main.py`, `analyze_resumes`) -/

/-- One part of the inbound multipart request (`fastapi.UploadFile` metadata;
the byte payload is opaque — extraction outcomes come from an oracle). -/
structure UploadFile where
  filename : String
  content_type : String
deriving Repr, DecidableEq

/-- Outcome of `await file.read()` for one file (main.py:186): success, or an
exception whose message appears in the 400 detail (main.py:195). -/
inductive ReadOutcome
  | ok
  | exn (msg : String)
deriving Repr, DecidableEq

/-- Outcome of `await ocr.process_file(contents, filename)` for one file:
`ret text err` is the returned `(text, ocr_error)` tuple, `exn msg` an
exception reaching the handler at main.py:225. -/
inductive ExtractOutcome
  | ret (text : Option String) (err : Option String)
  | exn (msg : String)
deriving Repr, DecidableEq

/-- Outcome of one `asyncio.wait_for(...)`-wrapped completion call:
either the inner coroutine's value, or `asyncio.TimeoutError`. -/
inductive CallResult (α : Type)
  | timeout
  | ok (a : α)
deriving Repr, DecidableEq

/-- Outcome of `storage.save_log` (storage.py:42-69): returned `True`,
returned `False`, or raised (e.g. `get_db`'s `RuntimeError`); all three are
absorbed by the handler at main.py:353-357. -/
inductive SaveOutcome
  | success
  | failure
  | raised
deriving Repr, DecidableEq

/-- Observable collaborator effects of one request, in call order. -/
inductive Event
  | llmEvaluateCall (file_name : String)
  | llmSummarizeCall (file_name : String)
  | auditWrite (entry : LogEntry) (outcome : SaveOutcome)
deriving Repr, DecidableEq

/-- The form fields of `POST /analyze` (main.py:129-134). `none` means the
field was absent; FastAPI then supplies `None` (for `query`, `request_id`)
or `"anonymous"` (for `user_id`). -/
structure AnalyzeInput where
  files : List UploadFile
  query : Option String
  request_id : Option String
  user_id : Option String
deriving Repr, DecidableEq

/-- Environment of one request: per-call collaborator outcomes (`readO` and
`extractO` indexed by original file position, `evalO` and `summO` by position
in the eligible list, matching the sequential call order), the generated
`uuid.uuid4()` value, the `datetime.utcnow()` captured at main.py:171, and
the audit-sink outcome. -/
structure Oracles where
  readO : Nat → ReadOutcome
  extractO : Nat → ExtractOutcome
  evalO : Nat → CallResult (Option EvalApiResult)
  summO : Nat → CallResult SummApi
  freshId : String
  startTime : Nat
  saveO : SaveOutcome

instance {ε α : Type} [DecidableEq ε] [DecidableEq α] : DecidableEq (Except ε α) := fun a b =>
  match a, b with
  | .ok x, .ok y =>
      if h : x = y then .isTrue (by rw [h]) else .isFalse (by simp [h])
  | .error x, .error y =>
      if h : x = y then .isTrue (by rw [h]) else .isFalse (by simp [h])
  | .ok _, .error _ => .isFalse (by simp)
  | .error _, .ok _ => .isFalse (by simp)

/-- What the endpoint hands back: the HTTP-level outcome plus the recorded
collaborator events. -/
structure AnalyzeResult where
  outcome : Except HttpError AnalyzeResponse
  events : List Event
deriving Repr, DecidableEq

/-- `request_id` after the default at main.py:163-164 (`if not request_id:`
covers both an absent and an empty form value). -/
def effRequestId (inp : AnalyzeInput) (orc : Oracles) : String :=
  match inp.request_id with
  | none => orc.freshId
  | some s => if strTruthy s then s else orc.freshId

/-- `user_id` after FastAPI's `Form("anonymous")` default and the fallback at
main.py:167-168 (`if not user_id:` fires only on an empty string and installs
`settings.DEFAULT_USER_ID`). -/
def effUserId (inp : AnalyzeInput) : String :=
  match inp.user_id with
  | none => "anonymous"
  | some s => if strTruthy s then s else "default-user-id"

/-- The read loop at main.py:182-195: first read exception aborts the request
with a 400; otherwise every file's metadata is retained in order. -/
def readPhase (readO : Nat → ReadOutcome) : Nat → List UploadFile →
    Except HttpError (List UploadFile)
  | _, [] => .ok []
  | i, f :: fs =>
    match readO i with
    | .exn msg => .error ⟨400, "Erro ao ler arquivo " ++ f.filename ++ ": " ++ msg⟩
    | .ok =>
      match readPhase readO (i + 1) fs with
      | .ok rest => .ok (f :: rest)
      | .error e => .error e

/-- The per-file body of the extraction loop (main.py:206-229): builds the
`ResumeFile` appended to `processed_files_info` and the optional entry of
`error_messages_for_log`. Failures are stored in-band as sentinel texts. -/
def processOneFile (f : UploadFile) (o : ExtractOutcome) :
    ResumeFile × Option String :=
  match o with
  | .exn msg =>
      (⟨f.filename, f.content_type, some ("Processing Error: " ++ msg)⟩,
       some (f.filename ++ ": Processing Error - " ++ msg))
  | .ret text err =>
      if strOptTruthy err then
        (⟨f.filename, f.content_type, some ("OCR Error: " ++ err.getD "")⟩,
         some (f.filename ++ ": OCR Error - " ++ err.getD ""))
      else if !strOptTruthy text then
        (⟨f.filename, f.content_type, some "No text extracted."⟩,
         some (f.filename ++ ": No text extracted after OCR."))
      else
        (⟨f.filename, f.content_type, text⟩, none)

/-- The extraction loop over `file_contents` (main.py:199-229), returning
`processed_files_info` and `error_messages_for_log`. -/
def extractionLoop (extractO : Nat → ExtractOutcome) : Nat → List UploadFile →
    List ResumeFile × List String
  | _, [] => ([], [])
  | i, f :: fs =>
    ((processOneFile f (extractO i)).1 :: (extractionLoop extractO (i + 1) fs).1,
     (match (processOneFile f (extractO i)).2 with | some m => [m] | none => []) ++
       (extractionLoop extractO (i + 1) fs).2)

/-- The filter predicate of `valid_resumes_for_llm` (main.py:232):
`p_file.text and not p_file.text.startswith("OCR Error:") and not
p_file.text.startswith("Processing Error:") and p_file.text != "No text
extracted."`. -/
def usableForLLM (p : ResumeFile) : Bool :=
  strOptTruthy p.text &&
  !strStartsWith (p.text.getD "") "OCR Error:" &&
  !strStartsWith (p.text.getD "") "Processing Error:" &&
  !((p.text.getD "") == "No text extracted.")

/-- `valid_resumes_for_llm` (main.py:232). -/
def validResumesForLLM (l : List ResumeFile) : List ResumeFile :=
  l.filter usableForLLM

/-- The three extraction-outcome classes of the branch at main.py:210-223. -/
inductive ExtractClass
  | usable
  | ocrFailure
  | noText
deriving Repr, DecidableEq

/-- Classification of a returned `(text, ocr_error)` extractor tuple exactly
as the branch order of main.py:210-223 does: a truthy error wins, then an
untruthy text, else the text is usable. -/
def classifyExtraction (t e : Option String) : ExtractClass :=
  if strOptTruthy e then .ocrFailure
  else if strOptTruthy t then .usable
  else .noText

/-- Texts that collide with the in-band failure sentinels of main.py:212,
218, 227, and are therefore dropped by the `valid_resumes_for_llm` filter
even when they are genuine extractor output. -/
def sentinelCollision (s : String) : Bool :=
  strStartsWith s "OCR Error:" || strStartsWith s "Processing Error:" ||
    s == "No text extracted."

/-- The placeholder justification installed on `asyncio.TimeoutError` in
ranking mode (main.py:285). -/
def timeoutJustification : String :=
  "Timeout durante o processamento LLM. O arquivo pode ser muito grande ou complexo."

/-- One iteration of the ranking loop (main.py:248-292): the produced
`QueryMatch` and the completion calls it made. A timeout of either the
evaluation call or the detail-summary call yields the score-0 placeholder. -/
def rankEntry (query : String) (f : ResumeFile)
    (ev : CallResult (Option EvalApiResult)) (sv : CallResult SummApi) :
    QueryMatch × List Event :=
  if strOptTruthy f.text then
    match ev with
    | .timeout =>
        (⟨f.filename, 0, timeoutJustification, none, none⟩,
         [.llmEvaluateCall f.filename])
    | .ok api =>
      match sv with
      | .timeout =>
          (⟨f.filename, 0, timeoutJustification, none, none⟩,
           [.llmEvaluateCall f.filename, .llmSummarizeCall f.filename])
      | .ok sapi =>
        let r := evaluate_resume (f.text.getD "") query f.filename api
        let sd := summarize_resume (f.text.getD "") f.filename sapi
        (⟨f.filename,
          (r.2.2).getD 0,
          (r.2.1).getD "No justification provided.",
          (match sd with | some s => s.name | none => none),
          (match sd with | some s => s.title | none => none)⟩,
         [.llmEvaluateCall f.filename, .llmSummarizeCall f.filename])
  else
    (⟨f.filename, 0, "Ignorado devido à falha na extração de texto via OCR.", none, none⟩,
     [])

/-- The ranking loop over `valid_resumes_for_llm` (main.py:248-292). -/
def rankingLoop (query : String) (evalO : Nat → CallResult (Option EvalApiResult))
    (summO : Nat → CallResult SummApi) : Nat → List ResumeFile →
    List QueryMatch × List Event
  | _, [] => ([], [])
  | i, f :: fs =>
    ((rankEntry query f (evalO i) (summO i)).1 ::
       (rankingLoop query evalO summO (i + 1) fs).1,
     (rankEntry query f (evalO i) (summO i)).2 ++
       (rankingLoop query evalO summO (i + 1) fs).2)

/-- Stable insertion of `x` (earlier in input order than every element of the
list) into a descending list: `x` goes before `y` exactly when
`x.score ≥ y.score`, so equal scores keep input order. -/
def insertDesc (x : QueryMatch) : List QueryMatch → List QueryMatch
  | [] => [x]
  | y :: ys => if y.score ≤ x.score then x :: y :: ys else y :: insertDesc x ys

/-- `ranking_results.sort(key=lambda x: x.score, reverse=True)` (main.py:295).
CPython's `list.sort` is stable also with `reverse=True`; a stable descending
insertion sort is extensionally the same ordering. -/
def sortByScoreDesc : List QueryMatch → List QueryMatch
  | [] => []
  | x :: xs => insertDesc x (sortByScoreDesc xs)

/-- One iteration of the summary loop (main.py:310-330). -/
def summaryEntry (f : ResumeFile) (sv : CallResult SummApi) :
    ResumeSummary × List Event :=
  if strOptTruthy f.text then
    match sv with
    | .timeout =>
        ({ file_name := f.filename,
           summary := "Timeout durante a geração do resumo. O arquivo pode ser muito grande ou complexo." },
         [.llmSummarizeCall f.filename])
    | .ok sapi =>
      match summarize_resume (f.text.getD "") f.filename sapi with
      | some s => (s, [.llmSummarizeCall f.filename])
      | none =>
          ({ file_name := f.filename,
             summary := "Falha ao gerar resumo. O modelo LLM não retornou resultados." },
           [.llmSummarizeCall f.filename])
  else
    ({ file_name := f.filename,
       summary := "Ignorado devido à falha na extração de texto via OCR." }, [])

/-- The summary loop over `valid_resumes_for_llm` (main.py:310-330). -/
def summaryLoop (summO : Nat → CallResult SummApi) : Nat → List ResumeFile →
    List ResumeSummary × List Event
  | _, [] => ([], [])
  | i, f :: fs =>
    ((summaryEntry f (summO i)).1 :: (summaryLoop summO (i + 1) fs).1,
     (summaryEntry f (summO i)).2 ++ (summaryLoop summO (i + 1) fs).2)

/-- `error_message` of the audit record (main.py:350):
`"; ".join(error_messages_for_log)` when non-empty, else `None`. -/
def errMsgOf (errs : List String) : Option String :=
  if errs.isEmpty then none else some (String.intercalate "; " errs)

/-- 400 detail for an empty upload list (main.py:160). -/
def msgNoFiles : String :=
  "Nenhum arquivo foi enviado. Por favor, faça upload de pelo menos um currículo."

/-- 400 detail when no file yielded usable text (main.py:236). -/
def msgNoValidText : String :=
  "Não foi possível extrair texto de nenhum dos arquivos enviados. Verifique se os formatos são suportados e se os arquivos contêm texto legível."

/-- The endpoint body `analyze_resumes` (main.py:157-361): validation, read
loop, extraction loop, eligibility filter, mode-dependent evaluation phase,
audit write, response. -/
def analyze (inp : AnalyzeInput) (orc : Oracles) : AnalyzeResult :=
  if inp.files.isEmpty then
    ⟨.error ⟨400, msgNoFiles⟩, []⟩
  else
    match readPhase orc.readO 0 inp.files with
    | .error e => ⟨.error e, []⟩
    | .ok file_contents =>
      let log_file_names := file_contents.map (·.filename)
      let pe := extractionLoop orc.extractO 0 file_contents
      let valid := validResumesForLLM pe.1
      if valid.isEmpty then
        ⟨.error ⟨400, msgNoValidText⟩, []⟩
      else if strOptTruthy inp.query then
        let q := inp.query.getD ""
        let rl := rankingLoop q orc.evalO orc.summO 0 valid
        let sorted := sortByScoreDesc rl.1
        let log : LogEntry :=
          ⟨effRequestId inp orc, effUserId inp, orc.startTime, inp.query,
           log_file_names, .ranking sorted, errMsgOf pe.2⟩
        ⟨.ok (.ranking ⟨effRequestId inp orc, effUserId inp, q, sorted⟩),
         rl.2 ++ [.auditWrite log orc.saveO]⟩
      else
        let sl := summaryLoop orc.summO 0 valid
        let log : LogEntry :=
          ⟨effRequestId inp orc, effUserId inp, orc.startTime, inp.query,
           log_file_names, .summaries sl.1, errMsgOf pe.2⟩
        ⟨.ok (.summaries ⟨effRequestId inp orc, effUserId inp, sl.1⟩),
         sl.2 ++ [.auditWrite log orc.saveO]⟩

/-- `valid_resumes_for_llm` as a function of the request and environment. -/
def eligibleOf (inp : AnalyzeInput) (orc : Oracles) : List ResumeFile :=
  validResumesForLLM (extractionLoop orc.extractO 0 inp.files).1

/-- `ranking_results` before the score sort (main.py:246-292). -/
def preRankingOf (inp : AnalyzeInput) (orc : Oracles) : List QueryMatch :=
  (rankingLoop (inp.query.getD "") orc.evalO orc.summO 0 (eligibleOf inp orc)).1

/-- `summaries` as produced by the summary loop (main.py:308-330). -/
def summariesOf (inp : AnalyzeInput) (orc : Oracles) : List ResumeSummary :=
  (summaryLoop orc.summO 0 (eligibleOf inp orc)).1

/-- Projects the audit record out of an event, if it is an audit write. -/
def auditProj : Event → Option LogEntry
  | .auditWrite l _ => some l
  | _ => none

/-- The audit records submitted during a request, extracted from its events. -/
def auditRecordsOf (res : AnalyzeResult) : List LogEntry :=
  res.events.filterMap auditProj

/-! ## A concrete request, used as the witnesses' input

Three uploads: two extract usable text, the third hits an OCR failure.  The
completion service answers the first eligible file and times out on every
later one; the evaluation's raw score 2 exercises the clamp. -/

def exFiles : List UploadFile :=
  [⟨"cv1.pdf", "application/pdf"⟩, ⟨"cv2.pdf", "application/pdf"⟩,
   ⟨"cv3.png", "image/png"⟩]

def exExtract : Nat → ExtractOutcome
  | 0 => .ret (some "Python dev com AWS") none
  | 1 => .ret (some "Engenheiro Java") none
  | _ => .ret none (some "Formato de arquivo não suportado: cv3.png")

def exEval : Nat → CallResult (Option EvalApiResult)
  | 0 => .ok (some ⟨some "Dev", true, some "Strong match", true, .ok 2⟩)
  | _ => .timeout

def exSummFields : SummApiResult :=
  ⟨some "Ana", some "Dev", some ["Python"], some ["ExpX"], some ["EduY"],
   "Resumo de Ana"⟩

def exSumm : Nat → CallResult SummApi
  | 0 => .ok (.ok exSummFields)
  | _ => .timeout

def exOrc : Oracles :=
  ⟨fun _ => .ok, exExtract, exEval, exSumm, "fresh-uuid", 1000, .success⟩

def exInpRank : AnalyzeInput :=
  ⟨exFiles, some "dev python", some "rid-1", some "uid-1"⟩

def exInpSumm : AnalyzeInput :=
  ⟨exFiles, none, some "rid-1", some "uid-1"⟩

def exMatch0 : QueryMatch := ⟨"cv1.pdf", 1, "Strong match", some "Ana", some "Dev"⟩

def exMatch1 : QueryMatch := ⟨"cv2.pdf", 0, timeoutJustification, none, none⟩

def exRankResp : RankingResponse :=
  ⟨"rid-1", "uid-1", "dev python", [exMatch0, exMatch1]⟩

def exSummaries : List ResumeSummary :=
  [⟨"cv1.pdf", "Resumo de Ana", some "Ana", some "Dev", some ["Python"],
    some ["ExpX"], some ["EduY"]⟩,
   ⟨"cv2.pdf", "Timeout durante a geração do resumo. O arquivo pode ser muito grande ou complexo.",
    none, none, none, none, none⟩]

def exSummResp : SummariesResponse := ⟨"rid-1", "uid-1", exSummaries⟩

/-! ## Helper lemmas -/

lemma clamp01_mem (s : ℚ) : 0 ≤ clamp01 s ∧ clamp01 s ≤ 1 := by
  unfold clamp01 pymax pymin
  split <;> split <;> constructor <;> linarith

lemma startsWithChars_append (pat s rest : List Char)
    (h : startsWithChars s pat = true) :
    startsWithChars (s ++ rest) pat = true := by
  induction pat generalizing s with
  | nil => simp [startsWithChars]
  | cons p ps ih =>
    cases s with
    | nil => simp [startsWithChars] at h
    | cons a as =>
      simp only [startsWithChars, Bool.and_eq_true] at h
      simp only [List.cons_append, startsWithChars, Bool.and_eq_true]
      exact ⟨h.1, ih as h.2⟩

lemma strStartsWith_append (s rest : String) (pat : String)
    (h : strStartsWith s pat = true) :
    strStartsWith (s ++ rest) pat = true := by
  unfold strStartsWith at h ⊢
  rw [String.data_append]
  exact startsWithChars_append _ _ _ h

lemma strTruthy_append_left (a b : String) (h : a.data ≠ []) :
    strTruthy (a ++ b) = true := by
  unfold strTruthy
  rw [String.data_append]
  cases ha : a.data with
  | nil => exact absurd ha h
  | cons c cs => simp

/-- The third component returned by `evaluate_resume` is always a score in
the closed unit interval. -/
lemma evaluate_resume_score (resume_text query file_name : String)
    (api : Option EvalApiResult) :
    ∃ q : ℚ, (evaluate_resume resume_text query file_name api).2.2 = some q ∧
      0 ≤ q ∧ q ≤ 1 := by
  cases api with
  | none => exact ⟨0, rfl, le_refl 0, zero_le_one⟩
  | some r =>
    by_cases h : (r.hasJustification && r.hasScore) = true
    · cases hs : r.scoreConv with
      | ok s => exact ⟨clamp01 s, by simp [evaluate_resume, h, hs], clamp01_mem s⟩
      | exn e => exact ⟨0, by simp [evaluate_resume, h, hs], le_refl 0, zero_le_one⟩
    · exact ⟨0, by simp [evaluate_resume, h], le_refl 0, zero_le_one⟩

/-! ### Stable descending sort -/

lemma mem_insertDesc {x a : QueryMatch} {l : List QueryMatch} :
    a ∈ insertDesc x l ↔ a = x ∨ a ∈ l := by
  induction l with
  | nil => simp [insertDesc]
  | cons y ys ih =>
    unfold insertDesc
    split
    · simp
    · simp only [List.mem_cons, ih]
      tauto

lemma pairwise_insertDesc {x : QueryMatch} {l : List QueryMatch}
    (h : List.Pairwise (fun a b => b.score ≤ a.score) l) :
    List.Pairwise (fun a b => b.score ≤ a.score) (insertDesc x l) := by
  induction l with
  | nil => simp [insertDesc]
  | cons y ys ih =>
    rcases List.pairwise_cons.mp h with ⟨hy, hys⟩
    unfold insertDesc
    split
    case isTrue hle =>
      refine List.pairwise_cons.mpr ⟨?_, h⟩
      intro b hb
      rcases List.mem_cons.mp hb with rfl | hb
      · exact hle
      · exact le_trans (hy b hb) hle
    case isFalse hle =>
      refine List.pairwise_cons.mpr ⟨?_, ih hys⟩
      intro b hb
      rcases mem_insertDesc.mp hb with rfl | hb
      · exact le_of_lt (lt_of_not_le hle)
      · exact hy b hb

lemma pairwise_sortByScoreDesc (l : List QueryMatch) :
    List.Pairwise (fun a b => b.score ≤ a.score) (sortByScoreDesc l) := by
  induction l with
  | nil => simp [sortByScoreDesc]
  | cons x xs ih => exact pairwise_insertDesc ih

lemma mem_sortByScoreDesc {a : QueryMatch} {l : List QueryMatch} :
    a ∈ sortByScoreDesc l ↔ a ∈ l := by
  induction l with
  | nil => simp [sortByScoreDesc]
  | cons x xs ih =>
    unfold sortByScoreDesc
    rw [mem_insertDesc, ih, List.mem_cons]

lemma filter_score_insertDesc (q : ℚ) (x : QueryMatch) (l : List QueryMatch) :
    (insertDesc x l).filter (fun m => m.score == q) =
      if x.score == q then x :: l.filter (fun m => m.score == q)
      else l.filter (fun m => m.score == q) := by
  induction l with
  | nil => simp [insertDesc, List.filter_cons]
  | cons y ys ih =>
    unfold insertDesc
    by_cases hle : y.score ≤ x.score
    · rw [if_pos hle]
      by_cases hx : x.score = q <;> simp [List.filter_cons, hx]
    · rw [if_neg hle]
      by_cases hy : y.score = q
      · have hx : ¬x.score = q := by
          intro hh
          exact hle (by rw [hh, ← hy])
        simp [List.filter_cons, hy, hx, ih]
      · by_cases hx : x.score = q <;> simp [List.filter_cons, hy, hx, ih]

/-- Stability of the score sort: the entries holding any fixed score value
appear in the sorted list exactly in their pre-sort (input) order. -/
lemma filter_score_sortByScoreDesc (q : ℚ) (l : List QueryMatch) :
    (sortByScoreDesc l).filter (fun m => m.score == q) =
      l.filter (fun m => m.score == q) := by
  induction l with
  | nil => rfl
  | cons x xs ih =>
    unfold sortByScoreDesc
    rw [filter_score_insertDesc, ih]
    by_cases hx : x.score = q <;> simp [List.filter_cons, hx]

/-! ### Loop lemmas -/

lemma readPhase_ok {readO : Nat → ReadOutcome} :
    ∀ {i : Nat} {fs l : List UploadFile}, readPhase readO i fs = .ok l → l = fs := by
  intro i fs
  induction fs generalizing i with
  | nil =>
    intro l h
    simpa [readPhase] using h.symm
  | cons f fs ih =>
    intro l h
    unfold readPhase at h
    cases hr : readO i with
    | exn msg => rw [hr] at h; exact absurd h (by simp)
    | ok =>
      rw [hr] at h
      cases hrest : readPhase readO (i + 1) fs with
      | error e => rw [hrest] at h; exact absurd h (by simp)
      | ok rest =>
        rw [hrest] at h
        cases h
        rw [ih hrest]

lemma rankEntry_file_name (query : String) (f : ResumeFile)
    (ev : CallResult (Option EvalApiResult)) (sv : CallResult SummApi) :
    (rankEntry query f ev sv).1.file_name = f.filename := by
  unfold rankEntry
  split
  · cases ev with
    | timeout => rfl
    | ok api => cases sv <;> rfl
  · rfl

lemma rankEntry_score_mem (query : String) (f : ResumeFile)
    (ev : CallResult (Option EvalApiResult)) (sv : CallResult SummApi) :
    0 ≤ (rankEntry query f ev sv).1.score ∧ (rankEntry query f ev sv).1.score ≤ 1 := by
  unfold rankEntry
  split
  · cases ev with
    | timeout => exact ⟨le_refl 0, zero_le_one⟩
    | ok api =>
      cases sv with
      | timeout => exact ⟨le_refl 0, zero_le_one⟩
      | ok sapi =>
        obtain ⟨q, hq, h0, h1⟩ :=
          evaluate_resume_score (f.text.getD "") query f.filename api
        simpa [hq] using ⟨h0, h1⟩
  · exact ⟨le_refl 0, zero_le_one⟩

/-- A timeout of either completion sub-call yields the score-0 placeholder,
provided the file's text is truthy (which every eligible file's is). -/
lemma rankEntry_timeout (query : String) (f : ResumeFile)
    (ev : CallResult (Option EvalApiResult)) (sv : CallResult SummApi)
    (ht : strOptTruthy f.text = true)
    (h : ev = .timeout ∨ sv = .timeout) :
    (rankEntry query f ev sv).1 = ⟨f.filename, 0, timeoutJustification, none, none⟩ := by
  unfold rankEntry
  rw [if_pos ht]
  rcases h with rfl | rfl
  · rfl
  · cases ev <;> rfl

lemma summaryEntry_file_name (f : ResumeFile) (sv : CallResult SummApi) :
    (summaryEntry f sv).1.file_name = f.filename := by
  unfold summaryEntry
  split
  · cases sv with
    | timeout => rfl
    | ok sapi => cases sapi <;> rfl
  · rfl

lemma summaryEntry_timeout (f : ResumeFile) (sv : CallResult SummApi)
    (ht : strOptTruthy f.text = true) (h : sv = .timeout) :
    (summaryEntry f sv).1 =
      { file_name := f.filename,
        summary := "Timeout durante a geração do resumo. O arquivo pode ser muito grande ou complexo." } := by
  subst h
  unfold summaryEntry
  rw [if_pos ht]

lemma rankingLoop_fst_get? (query : String)
    (evalO : Nat → CallResult (Option EvalApiResult))
    (summO : Nat → CallResult SummApi) :
    ∀ (l : List ResumeFile) (i j : Nat),
      ((rankingLoop query evalO summO i l).1)[j]? =
        (l[j]?).map (fun f => (rankEntry query f (evalO (i + j)) (summO (i + j))).1) := by
  intro l
  induction l with
  | nil => intro i j; simp [rankingLoop]
  | cons f fs ih =>
    intro i j
    cases j with
    | zero => simp [rankingLoop]
    | succ j =>
      have := ih (i + 1) j
      simp only [rankingLoop, List.getElem?_cons_succ, this]
      have harith : i + 1 + j = i + (j + 1) := by omega
      rw [harith]

lemma rankingLoop_length (query : String)
    (evalO : Nat → CallResult (Option EvalApiResult))
    (summO : Nat → CallResult SummApi) :
    ∀ (l : List ResumeFile) (i : Nat),
      ((rankingLoop query evalO summO i l).1).length = l.length := by
  intro l
  induction l with
  | nil => intro i; rfl
  | cons f fs ih => intro i; simp [rankingLoop, ih (i + 1)]

lemma rankingLoop_map_file_name (query : String)
    (evalO : Nat → CallResult (Option EvalApiResult))
    (summO : Nat → CallResult SummApi) :
    ∀ (l : List ResumeFile) (i : Nat),
      ((rankingLoop query evalO summO i l).1).map (·.file_name) =
        l.map (·.filename) := by
  intro l
  induction l with
  | nil => intro i; rfl
  | cons f fs ih =>
    intro i
    simp [rankingLoop, rankEntry_file_name, ih (i + 1)]

lemma rankingLoop_mem (query : String)
    (evalO : Nat → CallResult (Option EvalApiResult))
    (summO : Nat → CallResult SummApi) :
    ∀ {l : List ResumeFile} {i : Nat} {m : QueryMatch},
      m ∈ (rankingLoop query evalO summO i l).1 →
      ∃ f k, f ∈ l ∧ m = (rankEntry query f (evalO k) (summO k)).1 := by
  intro l
  induction l with
  | nil => intro i m h; simp [rankingLoop] at h
  | cons f fs ih =>
    intro i m h
    rcases List.mem_cons.mp h with rfl | h
    · exact ⟨f, i, List.mem_cons_self f fs, rfl⟩
    · obtain ⟨g, k, hg, hm⟩ := ih h
      exact ⟨g, k, List.mem_cons_of_mem f hg, hm⟩

lemma summaryLoop_fst_get? (summO : Nat → CallResult SummApi) :
    ∀ (l : List ResumeFile) (i j : Nat),
      ((summaryLoop summO i l).1)[j]? =
        (l[j]?).map (fun f => (summaryEntry f (summO (i + j))).1) := by
  intro l
  induction l with
  | nil => intro i j; simp [summaryLoop]
  | cons f fs ih =>
    intro i j
    cases j with
    | zero => simp [summaryLoop]
    | succ j =>
      have := ih (i + 1) j
      simp only [summaryLoop, List.getElem?_cons_succ, this]
      have harith : i + 1 + j = i + (j + 1) := by omega
      rw [harith]

lemma summaryLoop_map_file_name (summO : Nat → CallResult SummApi) :
    ∀ (l : List ResumeFile) (i : Nat),
      ((summaryLoop summO i l).1).map (·.file_name) = l.map (·.filename) := by
  intro l
  induction l with
  | nil => intro i; rfl
  | cons f fs ih =>
    intro i
    simp [summaryLoop, summaryEntry_file_name, ih (i + 1)]

lemma mem_validResumesForLLM_truthy {f : ResumeFile} {l : List ResumeFile}
    (h : f ∈ validResumesForLLM l) : strOptTruthy f.text = true := by
  have hf := List.of_mem_filter h
  unfold usableForLLM at hf
  simp only [Bool.and_eq_true] at hf
  exact hf.1.1.1

lemma auditProj_rankEntry (query : String) (f : ResumeFile)
    (ev : CallResult (Option EvalApiResult)) (sv : CallResult SummApi) :
    ((rankEntry query f ev sv).2).filterMap auditProj = [] := by
  unfold rankEntry
  split
  · cases ev with
    | timeout => rfl
    | ok api => cases sv <;> rfl
  · rfl

lemma auditProj_summaryEntry (f : ResumeFile) (sv : CallResult SummApi) :
    ((summaryEntry f sv).2).filterMap auditProj = [] := by
  unfold summaryEntry
  split
  · cases sv with
    | timeout => rfl
    | ok sapi => cases sapi <;> rfl
  · rfl

lemma rankingLoop_no_audit (query : String)
    (evalO : Nat → CallResult (Option EvalApiResult))
    (summO : Nat → CallResult SummApi) :
    ∀ (l : List ResumeFile) (i : Nat),
      ((rankingLoop query evalO summO i l).2).filterMap auditProj = [] := by
  intro l
  induction l with
  | nil => intro i; rfl
  | cons f fs ih =>
    intro i
    simp [rankingLoop, List.filterMap_append, auditProj_rankEntry, ih (i + 1)]

lemma summaryLoop_no_audit (summO : Nat → CallResult SummApi) :
    ∀ (l : List ResumeFile) (i : Nat),
      ((summaryLoop summO i l).2).filterMap auditProj = [] := by
  intro l
  induction l with
  | nil => intro i; rfl
  | cons f fs ih =>
    intro i
    simp [summaryLoop, List.filterMap_append, auditProj_summaryEntry, ih (i + 1)]

/-- What a successful request looks like: the reads all succeeded, at least
one file was eligible, and the response is exactly the mode-selected assembly
of the corresponding evaluation phase. -/
lemma analyze_ok_cases (inp : AnalyzeInput) (orc : Oracles) (resp : AnalyzeResponse)
    (h : (analyze inp orc).outcome = .ok resp) :
    readPhase orc.readO 0 inp.files = .ok inp.files ∧
    eligibleOf inp orc ≠ [] ∧
    ((strOptTruthy inp.query = true ∧
        resp = .ranking ⟨effRequestId inp orc, effUserId inp, inp.query.getD "",
          sortByScoreDesc (preRankingOf inp orc)⟩) ∨
     (strOptTruthy inp.query = false ∧
        resp = .summaries ⟨effRequestId inp orc, effUserId inp, summariesOf inp orc⟩)) := by
  by_cases hempty : inp.files.isEmpty
  · exact absurd h (by simp [analyze, hempty])
  · cases hr : readPhase orc.readO 0 inp.files with
    | error e => exact absurd h (by simp [analyze, hempty, hr])
    | ok fc =>
      have hfc := readPhase_ok hr
      subst hfc
      by_cases hvalid :
          (validResumesForLLM (extractionLoop orc.extractO 0 inp.files).1).isEmpty
      · exact absurd h (by simp [analyze, hempty, hr, hvalid])
      · refine ⟨rfl, ?_, ?_⟩
        · intro hnil
          have : (validResumesForLLM (extractionLoop orc.extractO 0 inp.files).1).isEmpty := by
            rw [show validResumesForLLM (extractionLoop orc.extractO 0 inp.files).1 =
                  eligibleOf inp orc from rfl, hnil]
            rfl
          exact hvalid this
        · by_cases hq : strOptTruthy inp.query
          · left
            refine ⟨hq, ?_⟩
            have h2 := h
            simp only [analyze, hempty, hr, hvalid, hq] at h2
            simp only [Bool.false_eq_true, if_false, if_true] at h2
            exact (Except.ok.inj h2).symm
          · right
            refine ⟨by simpa using hq, ?_⟩
            have h2 := h
            simp only [analyze, hempty, hr, hvalid, hq] at h2
            simp only [Bool.false_eq_true, if_false, if_true] at h2
            exact (Except.ok.inj h2).symm

/-- On every successful request exactly one audit record is submitted, and
its shape is the `LogEntry` assembled at main.py:343-351. -/
lemma analyze_ok_audit (inp : AnalyzeInput) (orc : Oracles) (resp : AnalyzeResponse)
    (h : (analyze inp orc).outcome = .ok resp) :
    ∃ res : AuditResult,
      auditRecordsOf (analyze inp orc) =
        [⟨effRequestId inp orc, effUserId inp, orc.startTime, inp.query,
          inp.files.map (·.filename), res,
          errMsgOf (extractionLoop orc.extractO 0 inp.files).2⟩] := by
  by_cases hempty : inp.files.isEmpty
  · exact absurd h (by simp [analyze, hempty])
  · cases hr : readPhase orc.readO 0 inp.files with
    | error e => exact absurd h (by simp [analyze, hempty, hr])
    | ok fc =>
      have hfc := readPhase_ok hr
      subst hfc
      by_cases hvalid :
          (validResumesForLLM (extractionLoop orc.extractO 0 inp.files).1).isEmpty
      · exact absurd h (by simp [analyze, hempty, hr, hvalid])
      · by_cases hq : strOptTruthy inp.query
        · refine ⟨.ranking (sortByScoreDesc (preRankingOf inp orc)), ?_⟩
          unfold auditRecordsOf
          simp only [analyze, hempty, hr, hvalid, hq]
          simp only [Bool.false_eq_true, if_false, if_true]
          rw [List.filterMap_append, rankingLoop_no_audit]
          rfl
        · refine ⟨.summaries (summariesOf inp orc), ?_⟩
          unfold auditRecordsOf
          simp only [analyze, hempty, hr, hvalid, hq]
          simp only [Bool.false_eq_true, if_false, if_true]
          rw [List.filterMap_append, summaryLoop_no_audit]
          rfl

/-! ## The claims -/

/-- C1: the response shape is selected solely by the `query` form field: for
every accepted request the response is a `RankingResponse` exactly when
`query` is present and non-empty (Python truthiness at main.py:243), and a
`SummariesResponse` exactly when it is absent or the empty string.  The two
shapes are a sum type, so they are never mixed, and the selection depends on
no collaborator outcome. -/
theorem claim_C1_mode_selection (inp : AnalyzeInput) (orc : Oracles)
    (resp : AnalyzeResponse) (h : (analyze inp orc).outcome = .ok resp) :
    ((∃ r, resp = .ranking r) ↔ strOptTruthy inp.query = true) ∧
    ((∃ s, resp = .summaries s) ↔ strOptTruthy inp.query = false) := by
  rcases analyze_ok_cases inp orc resp h with ⟨-, -, ⟨hq, rfl⟩ | ⟨hq, rfl⟩⟩ <;>
    simp [hq]

theorem claim_C1_witness :
    ((∃ r, AnalyzeResponse.ranking exRankResp = .ranking r) ↔
        strOptTruthy exInpRank.query = true) ∧
    ((∃ s, AnalyzeResponse.ranking exRankResp = .summaries s) ↔
        strOptTruthy exInpRank.query = false) :=
  claim_C1_mode_selection exInpRank exOrc (.ranking exRankResp) (by decide)

/-- C2: every returned ranking list is sorted by score in descending order,
and the sort is stable: for each score value, the entries holding it appear
in the same relative order as in the pre-sort list `preRankingOf`, which is
in original input order. -/
theorem claim_C2_ranking_sorted_stable (inp : AnalyzeInput) (orc : Oracles)
    (r : RankingResponse) (h : (analyze inp orc).outcome = .ok (.ranking r)) :
    List.Pairwise (fun a b => b.score ≤ a.score) r.ranking ∧
    ∀ q : ℚ, r.ranking.filter (fun m => m.score == q) =
      (preRankingOf inp orc).filter (fun m => m.score == q) := by
  rcases analyze_ok_cases inp orc (.ranking r) h with
    ⟨-, -, ⟨hq, hresp⟩ | ⟨hq, hresp⟩⟩
  · obtain rfl := AnalyzeResponse.ranking.inj hresp
    exact ⟨pairwise_sortByScoreDesc _, fun q => filter_score_sortByScoreDesc q _⟩
  · exact absurd hresp (by simp)

theorem claim_C2_witness :
    List.Pairwise (fun a b => b.score ≤ a.score) exRankResp.ranking ∧
    ∀ q : ℚ, exRankResp.ranking.filter (fun m => m.score == q) =
      (preRankingOf exInpRank exOrc).filter (fun m => m.score == q) :=
  claim_C2_ranking_sorted_stable exInpRank exOrc exRankResp (by decide)

/-- C3: both modes produce exactly one entry per eligible file, carrying that
file's filename: the summary list (in input order) and the pre-sort ranking
list both map `file_name`-wise onto the eligible files' filenames, and the
response's ranking is exactly the score sort of that 1:1 list. -/
theorem claim_C3_one_entry_per_eligible (inp : AnalyzeInput) (orc : Oracles)
    (resp : AnalyzeResponse) (h : (analyze inp orc).outcome = .ok resp) :
    (∀ s, resp = .summaries s →
        s.summaries.map (·.file_name) = (eligibleOf inp orc).map (·.filename)) ∧
    (∀ r, resp = .ranking r →
        (preRankingOf inp orc).map (·.file_name) =
          (eligibleOf inp orc).map (·.filename) ∧
        r.ranking = sortByScoreDesc (preRankingOf inp orc)) := by
  rcases analyze_ok_cases inp orc resp h with ⟨-, -, ⟨hq, rfl⟩ | ⟨hq, rfl⟩⟩
  · constructor
    · intro s hs
      exact absurd hs (by simp)
    · intro r hr
      obtain rfl := AnalyzeResponse.ranking.inj hr.symm
      exact ⟨rankingLoop_map_file_name _ _ _ _ 0, rfl⟩
  · constructor
    · intro s hs
      obtain rfl := AnalyzeResponse.summaries.inj hs.symm
      exact summaryLoop_map_file_name _ _ 0
    · intro r hr
      exact absurd hr (by simp)

theorem claim_C3_witness :
    (∀ s, AnalyzeResponse.ranking exRankResp = .summaries s →
        s.summaries.map (·.file_name) =
          (eligibleOf exInpRank exOrc).map (·.filename)) ∧
    (∀ r, AnalyzeResponse.ranking exRankResp = .ranking r →
        (preRankingOf exInpRank exOrc).map (·.file_name) =
          (eligibleOf exInpRank exOrc).map (·.filename) ∧
        r.ranking = sortByScoreDesc (preRankingOf exInpRank exOrc)) :=
  claim_C3_one_entry_per_eligible exInpRank exOrc (.ranking exRankResp) (by decide)

/-- C5: every score of every returned `QueryMatch` lies in `[0, 1]`, whatever
the completion service reported (out-of-range values are clamped, failures
and timeouts score 0). -/
theorem claim_C5_scores_in_unit_interval (inp : AnalyzeInput) (orc : Oracles)
    (r : RankingResponse) (m : QueryMatch)
    (h : (analyze inp orc).outcome = .ok (.ranking r)) (hm : m ∈ r.ranking) :
    0 ≤ m.score ∧ m.score ≤ 1 := by
  rcases analyze_ok_cases inp orc (.ranking r) h with
    ⟨-, -, ⟨hq, hresp⟩ | ⟨hq, hresp⟩⟩
  · obtain rfl := AnalyzeResponse.ranking.inj hresp
    have hm2 : m ∈ preRankingOf inp orc := mem_sortByScoreDesc.mp hm
    obtain ⟨f, k, hf, rfl⟩ := rankingLoop_mem _ _ _ hm2
    exact rankEntry_score_mem _ _ _ _
  · exact absurd hresp (by simp)

theorem claim_C5_witness : 0 ≤ exMatch0.score ∧ exMatch0.score ≤ 1 :=
  claim_C5_scores_in_unit_interval exInpRank exOrc exRankResp exMatch0
    (by decide) (by decide)

/-- C9: on every successfully accepted request exactly one audit record is
submitted; its `files_processed` equals the full originally submitted
filename list in submission order (failed and empty-text files included),
and its timestamp is the request start time captured before processing. -/
theorem claim_C9_audit_files_and_timestamp (inp : AnalyzeInput) (orc : Oracles)
    (resp : AnalyzeResponse) (h : (analyze inp orc).outcome = .ok resp) :
    ∃ log : LogEntry, auditRecordsOf (analyze inp orc) = [log] ∧
      log.files_processed = inp.files.map (·.filename) ∧
      log.timestamp = orc.startTime := by
  obtain ⟨res, hres⟩ := analyze_ok_audit inp orc resp h
  exact ⟨_, hres, rfl, rfl⟩

theorem claim_C9_witness :
    ∃ log : LogEntry, auditRecordsOf (analyze exInpSumm exOrc) = [log] ∧
      log.files_processed = exInpSumm.files.map (·.filename) ∧
      log.timestamp = exOrc.startTime :=
  claim_C9_audit_files_and_timestamp exInpSumm exOrc (.summaries exSummResp)
    (by decide)

/-- C4 counterexample: the extractor returns the non-empty text
`"No text extracted."` with no error, yet the file is not classified as
eligible — the `valid_resumes_for_llm` filter (main.py:232) compares the
stored text against the in-band failure sentinels, so genuine extractor
output that collides with a sentinel is dropped; with it being the only
file, the whole request is even rejected with the 400 of main.py:236 and no
completion call is ever made.  This refutes the claim that every file with
non-empty, error-free extraction is included in the evaluation. -/
theorem claim_C4_counterexample :
    strOptTruthy (some "No text extracted.") = true ∧
    usableForLLM (processOneFile ⟨"cv.pdf", "application/pdf"⟩
      (.ret (some "No text extracted.") none)).1 = false ∧
    analyze ⟨[⟨"cv.pdf", "application/pdf"⟩], none, none, none⟩
        ⟨fun _ => .ok, fun _ => .ret (some "No text extracted.") none,
         fun _ => .timeout, fun _ => .timeout, "id", 0, .success⟩ =
      ⟨.error ⟨400, msgNoValidText⟩, []⟩ := by
  refine ⟨by decide, by decide, by decide⟩

/-- C4 (amended): a file whose extractor tuple classifies as usable text is
eligible if and only if its text does not collide with one of the in-band
failure sentinels (`"OCR Error:"`/`"Processing Error:"` strStartsWith,
`"No text extracted."` equality); files classifying as OCR failure or
no-text-found are always excluded.  The classification itself
(`classifyExtraction`, the branch order of main.py:210-223) assigns exactly
one of the three classes to every returned extractor tuple. -/
theorem claim_C4_amended_eligibility (f : UploadFile) (t e : Option String) :
    usableForLLM (processOneFile f (.ret t e)).1 =
      (decide (classifyExtraction t e = .usable) && !sentinelCollision (t.getD "")) ∧
    (classifyExtraction t e ≠ .usable →
      usableForLLM (processOneFile f (.ret t e)).1 = false) := by
  have hocr : ∀ fn ct x, usableForLLM ⟨fn, ct, some ("OCR Error: " ++ x)⟩ = false := by
    intro fn ct x
    have hsw := strStartsWith_append "OCR Error: " x "OCR Error:" (by decide)
    have htr := strTruthy_append_left "OCR Error: " x (by decide)
    simp [usableForLLM, strOptTruthy, Option.getD_some, hsw, htr]
  have hnotext : ∀ fn ct, usableForLLM ⟨fn, ct, some "No text extracted."⟩ = false := by
    intro fn ct
    rfl
  have husable : ∀ fn ct s, strTruthy s = true →
      usableForLLM ⟨fn, ct, some s⟩ = !sentinelCollision s := by
    intro fn ct s hs
    simp only [usableForLLM, strOptTruthy, Option.getD_some, hs,
      sentinelCollision, Bool.true_and]
    cases strStartsWith s "OCR Error:" <;>
      cases strStartsWith s "Processing Error:" <;>
        cases s == "No text extracted." <;> rfl
  have hmain : usableForLLM (processOneFile f (.ret t e)).1 =
      (decide (classifyExtraction t e = .usable) && !sentinelCollision (t.getD "")) := by
    cases e with
    | some es =>
      by_cases hes : strTruthy es = true
      · have h1 : processOneFile f (.ret t (some es)) =
            (⟨f.filename, f.content_type, some ("OCR Error: " ++ es)⟩,
             some (f.filename ++ ": OCR Error - " ++ es)) := by
          simp [processOneFile, strOptTruthy, hes]
        have h2 : classifyExtraction t (some es) = .ocrFailure := by
          simp [classifyExtraction, strOptTruthy, hes]
        rw [h1, h2, hocr]
        rfl
      · have hes2 : strTruthy es = false := by simpa using hes
        cases t with
        | none =>
          have h1 : processOneFile f (.ret none (some es)) =
              (⟨f.filename, f.content_type, some "No text extracted."⟩,
               some (f.filename ++ ": No text extracted after OCR.")) := by
            simp [processOneFile, strOptTruthy, hes2]
          have h2 : classifyExtraction none (some es) = .noText := by
            simp [classifyExtraction, strOptTruthy, hes2]
          rw [h1, h2, hnotext]
          rfl
        | some ts =>
          by_cases hts : strTruthy ts = true
          · have h1 : processOneFile f (.ret (some ts) (some es)) =
                (⟨f.filename, f.content_type, some ts⟩, none) := by
              simp [processOneFile, strOptTruthy, hes2, hts]
            have h2 : classifyExtraction (some ts) (some es) = .usable := by
              simp [classifyExtraction, strOptTruthy, hes2, hts]
            rw [h1, h2, husable _ _ _ hts]
            rfl
          · have hts2 : strTruthy ts = false := by simpa using hts
            have h1 : processOneFile f (.ret (some ts) (some es)) =
                (⟨f.filename, f.content_type, some "No text extracted."⟩,
                 some (f.filename ++ ": No text extracted after OCR.")) := by
              simp [processOneFile, strOptTruthy, hes2, hts2]
            have h2 : classifyExtraction (some ts) (some es) = .noText := by
              simp [classifyExtraction, strOptTruthy, hes2, hts2]
            rw [h1, h2, hnotext]
            rfl
    | none =>
      cases t with
      | none =>
        have h1 : processOneFile f (.ret none none) =
            (⟨f.filename, f.content_type, some "No text extracted."⟩,
             some (f.filename ++ ": No text extracted after OCR.")) := by
          simp [processOneFile, strOptTruthy]
        have h2 : classifyExtraction none none = .noText := rfl
        rw [h1, h2, hnotext]
        rfl
      | some ts =>
        by_cases hts : strTruthy ts = true
        · have h1 : processOneFile f (.ret (some ts) none) =
              (⟨f.filename, f.content_type, some ts⟩, none) := by
            simp [processOneFile, strOptTruthy, hts]
          have h2 : classifyExtraction (some ts) none = .usable := by
            simp [classifyExtraction, strOptTruthy, hts]
          rw [h1, h2, husable _ _ _ hts]
          rfl
        · have hts2 : strTruthy ts = false := by simpa using hts
          have h1 : processOneFile f (.ret (some ts) none) =
              (⟨f.filename, f.content_type, some "No text extracted."⟩,
               some (f.filename ++ ": No text extracted after OCR.")) := by
            simp [processOneFile, strOptTruthy, hts2]
          have h2 : classifyExtraction (some ts) none = .noText := by
            simp [classifyExtraction, strOptTruthy, hts2]
          rw [h1, h2, hnotext]
          rfl
  refine ⟨hmain, fun hne => ?_⟩
  rw [hmain]
  simp [hne]

theorem claim_C4_witness :
    usableForLLM (processOneFile ⟨"cv.pdf", "application/pdf"⟩
      (.ret none (some "pdf corrompido"))).1 = false :=
  (claim_C4_amended_eligibility ⟨"cv.pdf", "application/pdf"⟩ none
    (some "pdf corrompido")).2 (by decide)

/-- C6: a completion-call timeout for one eligible file yields the
placeholder entry for that file only.  Conjuncts: (1) each position of the
pre-sort ranking list and of the summary list is determined by that file and
its own oracle outcomes alone, so a timeout at position `i` cannot affect
any other position; (2) a timeout of either ranking sub-call at position `i`
makes entry `i` the score-0 timeout `QueryMatch`; (3) a summarize timeout in
summary mode makes entry `i` the timeout `ResumeSummary`; (4) whether the
request succeeds is independent of all completion outcomes — it is never
aborted by a timeout. -/
theorem claim_C6_timeout_isolated (inp : AnalyzeInput) (orc : Oracles) (i : Nat) :
    (∀ j (hj : j < (eligibleOf inp orc).length),
        (preRankingOf inp orc)[j]? =
          some (rankEntry (inp.query.getD "") ((eligibleOf inp orc).get ⟨j, hj⟩)
            (orc.evalO j) (orc.summO j)).1 ∧
        (summariesOf inp orc)[j]? =
          some (summaryEntry ((eligibleOf inp orc).get ⟨j, hj⟩) (orc.summO j)).1) ∧
    ((orc.evalO i = .timeout ∨ orc.summO i = .timeout) →
      ∀ hi : i < (eligibleOf inp orc).length,
        (preRankingOf inp orc)[i]? =
          some ⟨((eligibleOf inp orc).get ⟨i, hi⟩).filename, 0,
            timeoutJustification, none, none⟩) ∧
    (orc.summO i = .timeout →
      ∀ hi : i < (eligibleOf inp orc).length,
        (summariesOf inp orc)[i]? =
          some { file_name := ((eligibleOf inp orc).get ⟨i, hi⟩).filename,
                 summary := "Timeout durante a geração do resumo. O arquivo pode ser muito grande ou complexo." }) ∧
    (∀ eo so,
      ((analyze inp { orc with evalO := eo, summO := so }).outcome).isOk =
        ((analyze inp orc).outcome).isOk) := by
  have hpoint : ∀ j (hj : j < (eligibleOf inp orc).length),
      (preRankingOf inp orc)[j]? =
        some (rankEntry (inp.query.getD "") ((eligibleOf inp orc).get ⟨j, hj⟩)
          (orc.evalO j) (orc.summO j)).1 ∧
      (summariesOf inp orc)[j]? =
        some (summaryEntry ((eligibleOf inp orc).get ⟨j, hj⟩) (orc.summO j)).1 := by
    intro j hj
    constructor
    · have h1 := rankingLoop_fst_get? (inp.query.getD "") orc.evalO orc.summO
        (eligibleOf inp orc) 0 j
      simp only [Nat.zero_add] at h1
      rw [show preRankingOf inp orc =
            (rankingLoop (inp.query.getD "") orc.evalO orc.summO 0
              (eligibleOf inp orc)).1 from rfl, h1,
        List.getElem?_eq_getElem hj]
      rfl
    · have h1 := summaryLoop_fst_get? orc.summO (eligibleOf inp orc) 0 j
      simp only [Nat.zero_add] at h1
      rw [show summariesOf inp orc =
            (summaryLoop orc.summO 0 (eligibleOf inp orc)).1 from rfl, h1,
        List.getElem?_eq_getElem hj]
      rfl
  have htruthy : ∀ (hi : i < (eligibleOf inp orc).length),
      strOptTruthy ((eligibleOf inp orc).get ⟨i, hi⟩).text = true := by
    intro hi
    exact mem_validResumesForLLM_truthy (List.get_mem _ _ hi)
  refine ⟨hpoint, ?_, ?_, ?_⟩
  · intro htime hi
    rw [(hpoint i hi).1,
      rankEntry_timeout _ _ _ _ (htruthy hi) htime]
  · intro htime hi
    rw [(hpoint i hi).2,
      summaryEntry_timeout _ _ (htruthy hi) htime]
  · intro eo so
    by_cases hempty : inp.files.isEmpty
    · simp [analyze, hempty]
    · cases hr : readPhase orc.readO 0 inp.files with
      | error e => simp [analyze, hempty, hr]
      | ok fc =>
        by_cases hvalid :
            (validResumesForLLM (extractionLoop orc.extractO 0 fc).1).isEmpty
        · simp [analyze, hempty, hr, hvalid]
        · by_cases hq : strOptTruthy inp.query <;>
            simp [analyze, hempty, hr, hvalid, hq, Except.isOk] <;> rfl

theorem claim_C6_witness :
    (preRankingOf exInpRank exOrc)[1]? =
      some ⟨"cv2.pdf", 0, timeoutJustification, none, none⟩ := by
  have h := (claim_C6_timeout_isolated exInpRank exOrc 1).2.1
    (Or.inl rfl) (by decide)
  exact h.trans (by decide)

/-- C7: validation failures abort before orchestration with a 400 and leave
no observable side effects: an empty file list, or a request in which no
uploaded file yields usable text, produces the corresponding client error
with an empty event trace — no completion call and no audit write. -/
theorem claim_C7_validation_aborts_cleanly (inp : AnalyzeInput) (orc : Oracles) :
    (inp.files = [] → analyze inp orc = ⟨.error ⟨400, msgNoFiles⟩, []⟩) ∧
    (inp.files ≠ [] → readPhase orc.readO 0 inp.files = .ok inp.files →
      eligibleOf inp orc = [] →
      analyze inp orc = ⟨.error ⟨400, msgNoValidText⟩, []⟩) := by
  constructor
  · intro h
    simp [analyze, h]
  · intro hne hr hel
    have hempty : inp.files.isEmpty = false := by
      simpa [List.isEmpty_iff] using hne
    have hvalid :
        (validResumesForLLM (extractionLoop orc.extractO 0 inp.files).1).isEmpty = true := by
      rw [show validResumesForLLM (extractionLoop orc.extractO 0 inp.files).1 =
            eligibleOf inp orc from rfl, hel]
      rfl
    simp [analyze, hempty, hr, hvalid]

theorem claim_C7_witness :
    analyze ⟨[], some "dev python", none, none⟩ exOrc =
      ⟨.error ⟨400, msgNoFiles⟩, []⟩ :=
  (claim_C7_validation_aborts_cleanly ⟨[], some "dev python", none, none⟩ exOrc).1 rfl

/-- C8: the audit-sink outcome never changes the response: for every request
and environment, the HTTP-level outcome (status and body) is identical
whether the audit append succeeds, returns failure, or raises. -/
theorem claim_C8_audit_failure_never_changes_response (inp : AnalyzeInput)
    (orc : Oracles) (s1 s2 : SaveOutcome) :
    (analyze inp { orc with saveO := s1 }).outcome =
      (analyze inp { orc with saveO := s2 }).outcome := by
  by_cases hempty : inp.files.isEmpty
  · simp [analyze, hempty]
  · cases hr : readPhase orc.readO 0 inp.files with
    | error e => simp [analyze, hempty, hr]
    | ok fc =>
      by_cases hvalid :
          (validResumesForLLM (extractionLoop orc.extractO 0 fc).1).isEmpty
      · simp [analyze, hempty, hr, hvalid]
      · by_cases hq : strOptTruthy inp.query <;>
          simp [analyze, hempty, hr, hvalid, hq, effRequestId]

/-- C10: `evaluate_resume` is total over its failure model: the returned
triple's score component is always present and in `[0, 1]` (so the caller's
`score if score is not None else 0.0` fallback at main.py:275 can never take
its `else` branch), and each failure case — falsy API result (which also
covers a missing API key), missing `justification`/`score` keys, or a raising
score conversion — returns `(None, an error message, 0.0)`. -/
theorem claim_C10_evaluate_resume_total (resume_text query file_name : String)
    (api : Option EvalApiResult) :
    (∃ q : ℚ, (evaluate_resume resume_text query file_name api).2.2 = some q ∧
        0 ≤ q ∧ q ≤ 1) ∧
    (api = none →
      evaluate_resume resume_text query file_name api =
        (none, some "Erro ao analisar resposta da IA: formato inválido ou chaves ausentes.", some 0)) ∧
    (∀ r, api = some r → (r.hasJustification && r.hasScore) = false →
      evaluate_resume resume_text query file_name api =
        (none, some "Erro ao analisar resposta da IA: formato inválido ou chaves ausentes.", some 0)) ∧
    (∀ r e, api = some r → (r.hasJustification && r.hasScore) = true →
      r.scoreConv = .exn e →
      evaluate_resume resume_text query file_name api =
        (none, some ("Erro no processamento: " ++ e), some 0)) := by
  refine ⟨evaluate_resume_score _ _ _ _, ?_, ?_, ?_⟩
  · rintro rfl
    rfl
  · rintro r rfl hf
    simp [evaluate_resume, hf]
  · rintro r e rfl ht hs
    simp [evaluate_resume, ht, hs]

theorem claim_C10_witness :
    evaluate_resume "cv text" "dev python" "cv1.pdf" none =
      (none, some "Erro ao analisar resposta da IA: formato inválido ou chaves ausentes.", some 0) :=
  (claim_C10_evaluate_resume_total "cv text" "dev python" "cv1.pdf" none).2.1 rfl

end Teddy
